import Mathlib

/-!
# IPU register views (pcsx2/IPU/IPU.h)

A shallow embedding of the register types declared in `pcsx2/IPU/IPU.h`:
the control register `tIPU_CTRL` with its masked `write` and flag helpers,
the command register `tIPU_CMD`, the opcode-specific command views
`tIPU_CMD_IDEC`, `tIPU_CMD_BDEC`, `tIPU_CMD_CSC`, the opcode enumeration
`SCE_IPU`, the command bookkeeping record `tIPU_cmd`, and the two interrupt
scheduling requests `IPU_INT_TO` / `IPU_INT_FROM`.

A `u32` is a natural number; where a C operation can leave the 32-bit range
(the complement `~x`) the wrap `% 2 ^ 32` is written out.
-/

namespace IPU

/-! ## 32-bit helpers -/

/-- The C expression `~x` on a `u32`: every one of the 32 bits flipped. -/
def not32 (x : Nat) : Nat := (2 ^ 32 - 1) ^^^ (x % 2 ^ 32)

/-- The C conversion of a 32-bit pattern to `int` (two's complement). -/
def toInt32 (x : Nat) : Int :=
  if x % 2 ^ 32 < 2 ^ 31 then ((x % 2 ^ 32 : Nat) : Int) else ((x % 2 ^ 32 : Nat) : Int) - 2 ^ 32

/-- The C conversion of an `int` back to its 32-bit pattern. -/
def toU32 (i : Int) : Nat := (i % 2 ^ 32).toNat

/-! ## The control register `tIPU_CTRL` -/

/-- The union `tIPU_CTRL`: its storage is the single word `_u32`. -/
structure tIPU_CTRL where
  _u32 : Nat
deriving DecidableEq, Repr

namespace tIPU_CTRL

/-- `void write(u32 value) { _u32 = (value & 0x47f30000) | (_u32 & 0x8000ffff); }` -/
def write (c : tIPU_CTRL) (value : Nat) : tIPU_CTRL :=
  ⟨(value &&& 0x47f30000) ||| (c._u32 &&& 0x8000ffff)⟩

/-- `bool test(u32 flags) const { return !!(_u32 & flags); }` -/
def test (c : tIPU_CTRL) (flags : Nat) : Bool :=
  decide (c._u32 &&& flags ≠ 0)

/-- `void set_flags(u32 flags) { _u32 |= flags; }` -/
def set_flags (c : tIPU_CTRL) (flags : Nat) : tIPU_CTRL :=
  ⟨c._u32 ||| flags⟩

/-- `void clear_flags(u32 flags) { _u32 &= ~flags; }` -/
def clear_flags (c : tIPU_CTRL) (flags : Nat) : tIPU_CTRL :=
  ⟨c._u32 &&& not32 flags⟩

/-- `void reset() { _u32 = 0; }` -/
def reset (_c : tIPU_CTRL) : tIPU_CTRL :=
  ⟨0⟩

end tIPU_CTRL

/-! ## Bit-field layouts

A struct of bit-fields is given by its declaration list `(name, width)`. The
fields share the storage of one `u32`; they are allocated from bit 0 upward in
declaration order, so a field starts at the sum of the widths declared before it.
-/

/-- Bit position at which the field called `name` starts. -/
def fieldOffset : List (String × Nat) → String → Nat
  | [], _ => 0
  | (n, b) :: rest, name => if n = name then 0 else b + fieldOffset rest name

/-- Declared width of the field called `name`. -/
def fieldWidth : List (String × Nat) → String → Nat
  | [], _ => 0
  | (n, b) :: rest, name => if n = name then b else fieldWidth rest name

/-- Reading the bit-field `name` out of the word `w`. -/
def getField (layout : List (String × Nat)) (name : String) (w : Nat) : Nat :=
  (w >>> fieldOffset layout name) % 2 ^ fieldWidth layout name

/-- The bits of the word occupied by the field `name`. -/
def fieldMask (layout : List (String × Nat)) (name : String) : Nat :=
  (2 ^ fieldWidth layout name - 1) <<< fieldOffset layout name

/-- The bits of the word occupied by the listed fields together. -/
def fieldsMask (layout : List (String × Nat)) (names : List String) : Nat :=
  (names.map (fieldMask layout)).foldr (· ||| ·) 0

/-- Reading every field of the word `w`, in declaration order: the first
declared field is the low bits, the others are read from what lies above it. -/
def unpackFields : List (String × Nat) → Nat → List Nat
  | [], _ => []
  | (_, b) :: rest, w => w % 2 ^ b :: unpackFields rest (w >>> b)

/-- Storing one value per field, in declaration order, into a zero word; a
value stored into a field of width `b` is truncated to `b` bits. -/
def packFields : List (String × Nat) → List Nat → Nat
  | (_, b) :: rest, v :: vs => (v % 2 ^ b) ||| (packFields rest vs <<< b)
  | _, _ => 0

/-- A value list is in range for a layout: one value per field, each below
`2 ^ width`. -/
def InRange (layout : List (String × Nat)) (vs : List Nat) : Prop :=
  List.Forall₂ (fun f v => v < 2 ^ f.2) layout vs

instance (layout : List (String × Nat)) (vs : List Nat) : Decidable (InRange layout vs) := by
  unfold InRange
  infer_instance

namespace tIPU_CTRL

/-- The anonymous bit-field struct of `tIPU_CTRL`, in declaration order. -/
def layout : List (String × Nat) :=
  [("IFC", 4), ("OFC", 4), ("CBP", 6), ("ECD", 1), ("SCD", 1), ("IDP", 2), ("resv0", 2),
   ("AS", 1), ("IVF", 1), ("QST", 1), ("MP1", 1), ("PCT", 3), ("resv1", 3), ("RST", 1),
   ("BUSY", 1)]

/-- Input FIFO counter. -/
def IFC (c : tIPU_CTRL) : Nat := getField layout "IFC" c._u32
/-- Output FIFO counter. -/
def OFC (c : tIPU_CTRL) : Nat := getField layout "OFC" c._u32
/-- Coded block pattern. -/
def CBP (c : tIPU_CTRL) : Nat := getField layout "CBP" c._u32
/-- Error code pattern. -/
def ECD (c : tIPU_CTRL) : Nat := getField layout "ECD" c._u32
/-- Start code detected. -/
def SCD (c : tIPU_CTRL) : Nat := getField layout "SCD" c._u32
/-- Intra DC precision. -/
def IDP (c : tIPU_CTRL) : Nat := getField layout "IDP" c._u32
/-- First reserved field. -/
def resv0 (c : tIPU_CTRL) : Nat := getField layout "resv0" c._u32
/-- Alternate scan. -/
def AS (c : tIPU_CTRL) : Nat := getField layout "AS" c._u32
/-- Intra VLC format. -/
def IVF (c : tIPU_CTRL) : Nat := getField layout "IVF" c._u32
/-- Q scale step. -/
def QST (c : tIPU_CTRL) : Nat := getField layout "QST" c._u32
/-- MPEG1 bit stream. -/
def MP1 (c : tIPU_CTRL) : Nat := getField layout "MP1" c._u32
/-- Picture type. -/
def PCT (c : tIPU_CTRL) : Nat := getField layout "PCT" c._u32
/-- Second reserved field. -/
def resv1 (c : tIPU_CTRL) : Nat := getField layout "resv1" c._u32
/-- Reset. -/
def RST (c : tIPU_CTRL) : Nat := getField layout "RST" c._u32
/-- Busy. -/
def BUSY (c : tIPU_CTRL) : Nat := getField layout "BUSY" c._u32

end tIPU_CTRL

/-! ## The command register `tIPU_CMD` and the opcode-specific views -/

/-- The struct `tIPU_CMD`: the word `DATA` (viewed as `OPTION`/`CMD`) and `BUSY`. -/
structure tIPU_CMD where
  DATA : Nat
  BUSY : Nat
deriving DecidableEq, Repr

namespace tIPU_CMD

/-- The anonymous bit-field struct sharing storage with `DATA`. -/
def layout : List (String × Nat) := [("OPTION", 28), ("CMD", 4)]

/-- VDEC decoded value. -/
def OPTION (r : tIPU_CMD) : Nat := getField layout "OPTION" r.DATA
/-- Last command. -/
def CMD (r : tIPU_CMD) : Nat := getField layout "CMD" r.DATA

end tIPU_CMD

/-- The union `tIPU_CMD_IDEC`; `mk val` is the constructor `tIPU_CMD_IDEC(u32 val)`. -/
structure tIPU_CMD_IDEC where
  _u32 : Nat
deriving DecidableEq, Repr

namespace tIPU_CMD_IDEC

/-- The anonymous bit-field struct of `tIPU_CMD_IDEC`, in declaration order. -/
def layout : List (String × Nat) :=
  [("FB", 6), ("UN2", 10), ("QSC", 5), ("UN1", 3), ("DTD", 1), ("SGN", 1), ("DTE", 1),
   ("OFM", 1), ("cmd", 4)]

def FB (c : tIPU_CMD_IDEC) : Nat := getField layout "FB" c._u32
def UN2 (c : tIPU_CMD_IDEC) : Nat := getField layout "UN2" c._u32
def QSC (c : tIPU_CMD_IDEC) : Nat := getField layout "QSC" c._u32
def UN1 (c : tIPU_CMD_IDEC) : Nat := getField layout "UN1" c._u32
def DTD (c : tIPU_CMD_IDEC) : Nat := getField layout "DTD" c._u32
def SGN (c : tIPU_CMD_IDEC) : Nat := getField layout "SGN" c._u32
def DTE (c : tIPU_CMD_IDEC) : Nat := getField layout "DTE" c._u32
def OFM (c : tIPU_CMD_IDEC) : Nat := getField layout "OFM" c._u32
def cmd (c : tIPU_CMD_IDEC) : Nat := getField layout "cmd" c._u32

/-- All nine fields, in declaration order. -/
def fields (c : tIPU_CMD_IDEC) : List Nat :=
  [c.FB, c.UN2, c.QSC, c.UN1, c.DTD, c.SGN, c.DTE, c.OFM, c.cmd]

end tIPU_CMD_IDEC

/-- The union `tIPU_CMD_BDEC`; `mk val` is the constructor `tIPU_CMD_BDEC(u32 val)`. -/
structure tIPU_CMD_BDEC where
  _u32 : Nat
deriving DecidableEq, Repr

namespace tIPU_CMD_BDEC

/-- The anonymous bit-field struct of `tIPU_CMD_BDEC`, in declaration order. -/
def layout : List (String × Nat) :=
  [("FB", 6), ("UN2", 10), ("QSC", 5), ("UN1", 4), ("DT", 1), ("DCR", 1), ("MBI", 1),
   ("cmd", 4)]

def FB (c : tIPU_CMD_BDEC) : Nat := getField layout "FB" c._u32
def UN2 (c : tIPU_CMD_BDEC) : Nat := getField layout "UN2" c._u32
def QSC (c : tIPU_CMD_BDEC) : Nat := getField layout "QSC" c._u32
def UN1 (c : tIPU_CMD_BDEC) : Nat := getField layout "UN1" c._u32
def DT (c : tIPU_CMD_BDEC) : Nat := getField layout "DT" c._u32
def DCR (c : tIPU_CMD_BDEC) : Nat := getField layout "DCR" c._u32
def MBI (c : tIPU_CMD_BDEC) : Nat := getField layout "MBI" c._u32
def cmd (c : tIPU_CMD_BDEC) : Nat := getField layout "cmd" c._u32

/-- All eight fields, in declaration order. -/
def fields (c : tIPU_CMD_BDEC) : List Nat :=
  [c.FB, c.UN2, c.QSC, c.UN1, c.DT, c.DCR, c.MBI, c.cmd]

end tIPU_CMD_BDEC

/-- The union `tIPU_CMD_CSC`; `mk val` is the constructor `tIPU_CMD_CSC(u32 val)`. -/
structure tIPU_CMD_CSC where
  _u32 : Nat
deriving DecidableEq, Repr

namespace tIPU_CMD_CSC

/-- The anonymous bit-field struct of `tIPU_CMD_CSC`, in declaration order. -/
def layout : List (String × Nat) :=
  [("MBC", 11), ("UN2", 15), ("DTE", 1), ("OFM", 1), ("cmd", 4)]

def MBC (c : tIPU_CMD_CSC) : Nat := getField layout "MBC" c._u32
def UN2 (c : tIPU_CMD_CSC) : Nat := getField layout "UN2" c._u32
def DTE (c : tIPU_CMD_CSC) : Nat := getField layout "DTE" c._u32
def OFM (c : tIPU_CMD_CSC) : Nat := getField layout "OFM" c._u32
def cmd (c : tIPU_CMD_CSC) : Nat := getField layout "cmd" c._u32

/-- All five fields, in declaration order. -/
def fields (c : tIPU_CMD_CSC) : List Nat :=
  [c.MBC, c.UN2, c.DTE, c.OFM, c.cmd]

end tIPU_CMD_CSC

/-! ## The opcode enumeration `SCE_IPU` -/

/-- The enumeration `SCE_IPU`, enumerators in declaration order. -/
inductive SCE_IPU where
  | SCE_IPU_BCLR
  | SCE_IPU_IDEC
  | SCE_IPU_BDEC
  | SCE_IPU_VDEC
  | SCE_IPU_FDEC
  | SCE_IPU_SETIQ
  | SCE_IPU_SETVQ
  | SCE_IPU_CSC
  | SCE_IPU_PACK
  | SCE_IPU_SETTH
deriving DecidableEq, Repr

namespace SCE_IPU

/-- The enumerators as the declaration lists them. -/
def enumerators : List SCE_IPU :=
  [SCE_IPU_BCLR, SCE_IPU_IDEC, SCE_IPU_BDEC, SCE_IPU_VDEC, SCE_IPU_FDEC, SCE_IPU_SETIQ,
   SCE_IPU_SETVQ, SCE_IPU_CSC, SCE_IPU_PACK, SCE_IPU_SETTH]

/-- The value of an enumerator: `SCE_IPU_BCLR = 0x0` is written out; every later
enumerator has no initialiser, so its value is that of its predecessor plus one. -/
def val : SCE_IPU → Nat
  | SCE_IPU_BCLR => 0x0
  | SCE_IPU_IDEC => 1
  | SCE_IPU_BDEC => 2
  | SCE_IPU_VDEC => 3
  | SCE_IPU_FDEC => 4
  | SCE_IPU_SETIQ => 5
  | SCE_IPU_SETVQ => 6
  | SCE_IPU_CSC => 7
  | SCE_IPU_PACK => 8
  | SCE_IPU_SETTH => 9

/-- A number is a defined opcode when some enumerator has it as value. -/
def isOpcode (c : Nat) : Bool := enumerators.any (fun op => op.val == c)

end SCE_IPU

/-! ## The command bookkeeping record `tIPU_cmd` -/

/-- Modelled from the spec: `memzero` is a helper of the repository that is not
declared in IPU.h; it is taken to fill the object it is given with zero bytes,
which is how `clear()` is read (`pos[0] == 0`, `pos[1] == 0`). -/
def memzero {n : Nat} (_obj : Fin n → Int) : Fin n → Int := fun _ => 0

/-- The struct `tIPU_cmd`: three `int` members, `pos` an array of two. -/
structure tIPU_cmd where
  index : Int
  pos : Fin 2 → Int
  current : Int

namespace tIPU_cmd

/-- `void clear() { memzero(pos); index = 0; current = 0xffffffff; }` -/
def clear (s : tIPU_cmd) : tIPU_cmd :=
  { pos := memzero s.pos, index := 0, current := toInt32 0xffffffff }

end tIPU_cmd

/-! ## Interrupt scheduling, deferred policy (`IPU_INLINE_IRQS` not defined)

`CPU_INT`, `cpuRegs` and the channel numbers `DMAC_TO_IPU`, `DMAC_FROM_IPU` are
declared outside IPU.h. What a scheduling request does is recorded as the list
of calls it makes to `CPU_INT`; the channel numbers and the current value of
`cpuRegs.interrupt` are arguments.
-/

/-- A call `CPU_INT(n, ecycle)` to the cycle scheduler. -/
structure CPU_INT where
  n : Nat
  ecycle : Nat
deriving DecidableEq, Repr

/-- `#define IPU_INT_TO( cycles )
  if(!(cpuRegs.interrupt & (1<<4))) CPU_INT( DMAC_TO_IPU, cycles )` -/
def IPU_INT_TO (DMAC_TO_IPU : Nat) (interrupt : Nat) (cycles : Nat) : List CPU_INT :=
  if interrupt &&& (1 <<< 4) = 0 then [⟨DMAC_TO_IPU, cycles⟩] else []

/-- `#define IPU_INT_FROM( cycles )  CPU_INT( DMAC_FROM_IPU, cycles )` -/
def IPU_INT_FROM (DMAC_FROM_IPU : Nat) (_interrupt : Nat) (cycles : Nat) : List CPU_INT :=
  [⟨DMAC_FROM_IPU, cycles⟩]

/-! ## Bitwise helper lemmas -/

theorem testBit_notN (n x i : Nat) :
    ((2 ^ n - 1) ^^^ (x % 2 ^ n)).testBit i = (decide (i < n) && !x.testBit i) := by
  rw [Nat.testBit_xor, Nat.testBit_two_pow_sub_one, Nat.testBit_mod_two_pow]
  by_cases h : i < n <;> simp [h]

theorem testBit_not32 (x i : Nat) :
    (not32 x).testBit i = (decide (i < 32) && !x.testBit i) :=
  testBit_notN 32 x i

theorem or_eq_zero_iff (a b : Nat) : a ||| b = 0 ↔ a = 0 ∧ b = 0 := by
  constructor
  · intro h
    have hb : ∀ i, (a ||| b).testBit i = false := by
      intro i; rw [h]; exact Nat.zero_testBit i
    constructor
    · apply Nat.eq_of_testBit_eq
      intro i
      have := hb i
      rw [Nat.testBit_or, Bool.or_eq_false_iff] at this
      rw [this.1, Nat.zero_testBit]
    · apply Nat.eq_of_testBit_eq
      intro i
      have := hb i
      rw [Nat.testBit_or, Bool.or_eq_false_iff] at this
      rw [this.2, Nat.zero_testBit]
  · rintro ⟨rfl, rfl⟩
    rfl

/-- If two masks are disjoint, masking by one and then the other gives zero. -/
theorem and_and_disjoint (x m k : Nat) (h : m &&& k = 0) : (x &&& m) &&& k = 0 := by
  rw [Nat.and_assoc, h, Nat.and_zero]

/-- If `k` lies inside `m`, masking by `m` and then `k` is masking by `k`. -/
theorem and_and_subset (x m k : Nat) (h : m &&& k = k) : (x &&& m) &&& k = x &&& k := by
  rw [Nat.and_assoc, h]

/-- If `p` lies inside `k`, masking by `p` and then `k` is masking by `p`. -/
theorem and_and_absorb (x p k : Nat) (h : p &&& k = p) : (x &&& p) &&& k = x &&& p := by
  rw [Nat.and_assoc, h]

/-- The masked-write shape: restricted to a mask `k` inside `m` and disjoint
from `p`, the word `(v & m) | (o & p)` shows `v`. -/
theorem write_shape_new (v o m p k : Nat) (hm : m &&& k = k) (hp : p &&& k = 0) :
    ((v &&& m) ||| (o &&& p)) &&& k = v &&& k := by
  rw [Nat.and_distrib_right, and_and_subset v m k hm, and_and_disjoint o p k hp, Nat.or_zero]

/-- The masked-write shape: restricted to a mask `k` inside `p` and disjoint
from `m`, the word `(v & m) | (o & p)` shows `o`. -/
theorem write_shape_old (v o m p k : Nat) (hm : m &&& k = 0) (hp : p &&& k = k) :
    ((v &&& m) ||| (o &&& p)) &&& k = o &&& k := by
  rw [Nat.and_distrib_right, and_and_disjoint v m k hm, and_and_subset o p k hp, Nat.zero_or]

/-- A bit that is set in a number below `2 ^ n` has index below `n`. -/
theorem lt_of_testBit {m n i : Nat} (hm : m < 2 ^ n) (h : m.testBit i = true) : i < n := by
  by_contra hc
  have hle : 2 ^ n ≤ 2 ^ i := Nat.pow_le_pow_right (by decide) (Nat.le_of_not_lt hc)
  rw [Nat.testBit_lt_two_pow (Nat.lt_of_lt_of_le hm hle)] at h
  exact Bool.false_ne_true h

/-- Clearing flags that are disjoint from a 32-bit mask `m` is not seen
through `m`. -/
theorem and_not32_of_disjoint (x f m : Nat) (hm : m < 2 ^ 32) (hd : f &&& m = 0) :
    (x &&& not32 f) &&& m = x &&& m := by
  apply Nat.eq_of_testBit_eq
  intro i
  rw [Nat.testBit_and, Nat.testBit_and, Nat.testBit_and, testBit_not32]
  cases hmi : m.testBit i with
  | false => simp
  | true =>
    have hi : i < 32 := lt_of_testBit hm hmi
    have hf : f.testBit i = false := by
      have := congrArg (fun z => Nat.testBit z i) hd
      simp only [Nat.testBit_and, Nat.zero_testBit, hmi, Bool.and_true] at this
      exact this
    simp [hi, hf]

/-- Two words that agree on a mask containing a field agree on that field. -/
theorem getField_congr (layout : List (String × Nat)) (name : String) (x y m : Nat)
    (hk : m &&& fieldMask layout name = fieldMask layout name) (h : x &&& m = y &&& m) :
    getField layout name x = getField layout name y := by
  unfold getField
  unfold fieldMask at hk
  apply Nat.eq_of_testBit_eq
  intro i
  rw [Nat.testBit_mod_two_pow, Nat.testBit_mod_two_pow, Nat.testBit_shiftRight,
    Nat.testBit_shiftRight]
  by_cases hi : i < fieldWidth layout name
  · have hm : m.testBit (fieldOffset layout name + i) = true := by
      have := congrArg (fun z => Nat.testBit z (fieldOffset layout name + i)) hk
      simp only [Nat.testBit_and, Nat.testBit_shiftLeft, Nat.testBit_two_pow_sub_one,
        Nat.le_add_right, Nat.add_sub_cancel_left, hi, decide_True, Bool.and_true] at this
      exact this
    have hxy := congrArg (fun z => Nat.testBit z (fieldOffset layout name + i)) h
    simp only [Nat.testBit_and, hm, Bool.and_true] at hxy
    rw [hxy]
  · simp [hi]

/-- A word that is zero on a mask containing a field has that field zero. -/
theorem getField_eq_zero (layout : List (String × Nat)) (name : String) (x m : Nat)
    (hk : m &&& fieldMask layout name = fieldMask layout name) (h : x &&& m = 0) :
    getField layout name x = 0 := by
  rw [getField_congr layout name x 0 m hk (by rw [h, Nat.zero_and])]
  simp [getField]

/-- A value below `2 ^ b` placed under a word shifted up by `b` bits. -/
theorem or_shiftLeft_eq (v q b : Nat) (hv : v < 2 ^ b) : v ||| (q <<< b) = 2 ^ b * q + v := by
  rw [Nat.or_comm, Nat.shiftLeft_eq, Nat.mul_comm q (2 ^ b), Nat.mul_add_lt_is_or hv]

/-- Reading all fields and storing them again keeps the bits the layout covers. -/
theorem packFields_unpackFields (layout : List (String × Nat)) (w : Nat) :
    packFields layout (unpackFields layout w) = w % 2 ^ (layout.map Prod.snd).sum := by
  induction layout generalizing w with
  | nil => simp [packFields, unpackFields, Nat.mod_one]
  | cons f rest ih =>
    obtain ⟨n, b⟩ := f
    simp only [unpackFields, packFields, List.map_cons, List.sum_cons]
    rw [ih, Nat.mod_mod, or_shiftLeft_eq _ _ _ (Nat.mod_lt _ (Nat.two_pow_pos b)),
      Nat.shiftRight_eq_div_pow, Nat.pow_add, Nat.mod_mul, Nat.add_comm]

/-- Storing in-range values and reading all fields gives the values back. -/
theorem unpackFields_packFields (layout : List (String × Nat)) (vs : List Nat)
    (h : InRange layout vs) : unpackFields layout (packFields layout vs) = vs := by
  unfold InRange at h
  induction h with
  | nil => rfl
  | @cons f v rest vs hv _ ih =>
    obtain ⟨n, b⟩ := f
    simp only [packFields, unpackFields]
    have hv2 : v < 2 ^ b := hv
    rw [Nat.mod_eq_of_lt hv2, or_shiftLeft_eq _ _ _ hv2, Nat.mul_add_mod,
      Nat.mod_eq_of_lt hv2, Nat.shiftRight_eq_div_pow,
      Nat.mul_add_div (Nat.two_pow_pos b), Nat.div_eq_of_lt hv2, Nat.add_zero, ih]

/-! ## Control register: the masked write -/

/-- C1: for every prior control-register value and every written value `V`,
after `write(V)` the bits inside mask `0x47F30000` are exactly `V`'s bits. -/
theorem write_sets_masked_bits (old : tIPU_CTRL) (V : Nat) :
    (old.write V)._u32 &&& 0x47F30000 = V &&& 0x47F30000 := by
  unfold tIPU_CTRL.write
  exact write_shape_new V old._u32 _ _ _ (by decide) (by decide)

/-- C2, as stated, fails: a prior value with the reserved bit 18 set loses that
bit on `write(0)`, although bit 18 lies outside mask `0x47F30000`. -/
theorem write_outside_mask_counterexample :
    ¬ (((tIPU_CTRL.mk 0x00040000).write 0)._u32 &&& not32 0x47F30000
        = (tIPU_CTRL.mk 0x00040000)._u32 &&& not32 0x47F30000) := by
  decide

/-- C2 (amended): `write(V)` leaves every bit of the preserved mask `0x8000ffff`
unchanged and clears the remaining bits outside `0x47F30000` (the reserved bits
`0x380C0000`); so the part of the new value outside `0x47F30000` is the old
value restricted to `0x8000ffff`. -/
theorem write_outside_mask (old : tIPU_CTRL) (V : Nat) :
    (old.write V)._u32 &&& 0x8000ffff = old._u32 &&& 0x8000ffff
    ∧ (old.write V)._u32 &&& not32 0x47F30000 = old._u32 &&& 0x8000ffff := by
  unfold tIPU_CTRL.write
  constructor
  · exact write_shape_old V old._u32 _ _ _ (by decide) (by decide)
  · rw [Nat.and_distrib_right, and_and_disjoint V _ _ (by decide),
      and_and_absorb old._u32 _ _ (by decide), Nat.zero_or]

/-- C3: reserved bits are never writable: after `write(V)` the reserved fields
`resv0` (bits 18-19) and `resv1` (bits 27-29) are zero, that is
`(new & 0x380C0000) == 0`, whatever the prior value and whatever `V` is. -/
theorem write_clears_reserved (old : tIPU_CTRL) (V : Nat) :
    fieldsMask tIPU_CTRL.layout ["resv0", "resv1"] = 0x380C0000
    ∧ fieldOffset tIPU_CTRL.layout "resv0" = 18 ∧ fieldWidth tIPU_CTRL.layout "resv0" = 2
    ∧ fieldOffset tIPU_CTRL.layout "resv1" = 27 ∧ fieldWidth tIPU_CTRL.layout "resv1" = 3
    ∧ (old.write V)._u32 &&& 0x380C0000 = 0
    ∧ (old.write V).resv0 = 0 ∧ (old.write V).resv1 = 0 := by
  have h : (old.write V)._u32 &&& 0x380C0000 = 0 := by
    unfold tIPU_CTRL.write
    rw [Nat.and_distrib_right, and_and_disjoint V _ _ (by decide),
      and_and_disjoint old._u32 _ _ (by decide)]
    rfl
  exact ⟨by decide, by decide, by decide, by decide, by decide, h,
    getField_eq_zero _ _ _ 0x380C0000 (by decide) h,
    getField_eq_zero _ _ _ 0x380C0000 (by decide) h⟩

/-- C6: in the declared layout the writable mask `0x47F30000` is exactly the
fields IDP, AS, IVF, QST, MP1, PCT, RST and the preserved mask `0x8000ffff` is
exactly IFC, OFC, CBP, ECD, SCD, BUSY; so `write(V)` sets the former to `V`'s
fields and leaves the latter at their prior values. -/
theorem write_field_effect (old : tIPU_CTRL) (V : Nat) :
    fieldsMask tIPU_CTRL.layout ["IDP", "AS", "IVF", "QST", "MP1", "PCT", "RST"] = 0x47F30000
    ∧ fieldsMask tIPU_CTRL.layout ["IFC", "OFC", "CBP", "ECD", "SCD", "BUSY"] = 0x8000ffff
    ∧ ((old.write V).IDP = (tIPU_CTRL.mk V).IDP
      ∧ (old.write V).AS = (tIPU_CTRL.mk V).AS
      ∧ (old.write V).IVF = (tIPU_CTRL.mk V).IVF
      ∧ (old.write V).QST = (tIPU_CTRL.mk V).QST
      ∧ (old.write V).MP1 = (tIPU_CTRL.mk V).MP1
      ∧ (old.write V).PCT = (tIPU_CTRL.mk V).PCT
      ∧ (old.write V).RST = (tIPU_CTRL.mk V).RST)
    ∧ ((old.write V).IFC = old.IFC
      ∧ (old.write V).OFC = old.OFC
      ∧ (old.write V).CBP = old.CBP
      ∧ (old.write V).ECD = old.ECD
      ∧ (old.write V).SCD = old.SCD
      ∧ (old.write V).BUSY = old.BUSY) := by
  have hn : (old.write V)._u32 &&& 0x47F30000 = V &&& 0x47F30000 := by
    unfold tIPU_CTRL.write
    exact write_shape_new V old._u32 _ _ _ (by decide) (by decide)
  have ho : (old.write V)._u32 &&& 0x8000ffff = old._u32 &&& 0x8000ffff := by
    unfold tIPU_CTRL.write
    exact write_shape_old V old._u32 _ _ _ (by decide) (by decide)
  refine ⟨by decide, by decide, ⟨?_, ?_, ?_, ?_, ?_, ?_, ?_⟩, ⟨?_, ?_, ?_, ?_, ?_, ?_⟩⟩
  · exact getField_congr _ _ _ _ 0x47F30000 (by decide) hn
  · exact getField_congr _ _ _ _ 0x47F30000 (by decide) hn
  · exact getField_congr _ _ _ _ 0x47F30000 (by decide) hn
  · exact getField_congr _ _ _ _ 0x47F30000 (by decide) hn
  · exact getField_congr _ _ _ _ 0x47F30000 (by decide) hn
  · exact getField_congr _ _ _ _ 0x47F30000 (by decide) hn
  · exact getField_congr _ _ _ _ 0x47F30000 (by decide) hn
  · exact getField_congr _ _ _ _ 0x8000ffff (by decide) ho
  · exact getField_congr _ _ _ _ 0x8000ffff (by decide) ho
  · exact getField_congr _ _ _ _ 0x8000ffff (by decide) ho
  · exact getField_congr _ _ _ _ 0x8000ffff (by decide) ho
  · exact getField_congr _ _ _ _ 0x8000ffff (by decide) ho
  · exact getField_congr _ _ _ _ 0x8000ffff (by decide) ho

/-! ## Control register: the flag helpers -/

/-- C10: `set_flags(f)` sets every bit of `f` and changes no bit outside `f`
(so `test(f)` holds afterwards when `f != 0`); `clear_flags(f)` makes `test(f)`
false and changes no bit outside `f`; `test` has any-bit semantics; and setting
or clearing ECD/SCD flags leaves the FIFO counters IFC, OFC and BUSY alone. -/
theorem flag_helpers (c : tIPU_CTRL) (f g : Nat) :
    (c.set_flags f)._u32 &&& f = f
    ∧ (c.set_flags f)._u32 &&& not32 f = c._u32 &&& not32 f
    ∧ (f ≠ 0 → (c.set_flags f).test f = true)
    ∧ (c.clear_flags f).test f = false
    ∧ (c.clear_flags f)._u32 &&& not32 f = c._u32 &&& not32 f
    ∧ c.test (f ||| g) = (c.test f || c.test g)
    ∧ ((c.set_flags (f &&& fieldsMask tIPU_CTRL.layout ["ECD", "SCD"])).IFC = c.IFC
      ∧ (c.set_flags (f &&& fieldsMask tIPU_CTRL.layout ["ECD", "SCD"])).OFC = c.OFC
      ∧ (c.set_flags (f &&& fieldsMask tIPU_CTRL.layout ["ECD", "SCD"])).BUSY = c.BUSY)
    ∧ ((c.clear_flags (f &&& fieldsMask tIPU_CTRL.layout ["ECD", "SCD"])).IFC = c.IFC
      ∧ (c.clear_flags (f &&& fieldsMask tIPU_CTRL.layout ["ECD", "SCD"])).OFC = c.OFC
      ∧ (c.clear_flags (f &&& fieldsMask tIPU_CTRL.layout ["ECD", "SCD"])).BUSY = c.BUSY) := by
  have hset : (c._u32 ||| f) &&& f = f := by
    apply Nat.eq_of_testBit_eq
    intro i
    rw [Nat.testBit_and, Nat.testBit_or]
    cases c._u32.testBit i <;> cases f.testBit i <;> rfl
  have hclr : (c._u32 &&& not32 f) &&& f = 0 := by
    apply Nat.eq_of_testBit_eq
    intro i
    rw [Nat.testBit_and, Nat.testBit_and, testBit_not32, Nat.zero_testBit]
    cases c._u32.testBit i <;> cases f.testBit i <;> simp
  have hdis : (f &&& fieldsMask tIPU_CTRL.layout ["ECD", "SCD"])
      &&& fieldsMask tIPU_CTRL.layout ["IFC", "OFC", "BUSY"] = 0 :=
    and_and_disjoint f _ _ (by decide)
  have hs : (c.set_flags (f &&& fieldsMask tIPU_CTRL.layout ["ECD", "SCD"]))._u32
      &&& fieldsMask tIPU_CTRL.layout ["IFC", "OFC", "BUSY"]
      = c._u32 &&& fieldsMask tIPU_CTRL.layout ["IFC", "OFC", "BUSY"] := by
    unfold tIPU_CTRL.set_flags
    rw [Nat.and_distrib_right, hdis, Nat.or_zero]
  have hc : (c.clear_flags (f &&& fieldsMask tIPU_CTRL.layout ["ECD", "SCD"]))._u32
      &&& fieldsMask tIPU_CTRL.layout ["IFC", "OFC", "BUSY"]
      = c._u32 &&& fieldsMask tIPU_CTRL.layout ["IFC", "OFC", "BUSY"] := by
    unfold tIPU_CTRL.clear_flags
    exact and_not32_of_disjoint _ _ _ (by decide) hdis
  refine ⟨hset, ?_, ?_, ?_, ?_, ?_, ⟨?_, ?_, ?_⟩, ⟨?_, ?_, ?_⟩⟩
  · unfold tIPU_CTRL.set_flags
    apply Nat.eq_of_testBit_eq
    intro i
    rw [Nat.testBit_and, Nat.testBit_and, Nat.testBit_or, testBit_not32]
    cases c._u32.testBit i <;> cases f.testBit i <;> simp
  · intro hf
    unfold tIPU_CTRL.test tIPU_CTRL.set_flags
    rw [hset]
    exact decide_eq_true hf
  · unfold tIPU_CTRL.test tIPU_CTRL.clear_flags
    rw [hclr]
    rfl
  · unfold tIPU_CTRL.clear_flags
    rw [Nat.and_assoc, Nat.and_self]
  · unfold tIPU_CTRL.test
    rw [Nat.and_or_distrib_left]
    by_cases h1 : c._u32 &&& f = 0 <;> by_cases h2 : c._u32 &&& g = 0 <;>
      simp [or_eq_zero_iff, h1, h2]
  · exact getField_congr _ _ _ _ _ (by decide) hs
  · exact getField_congr _ _ _ _ _ (by decide) hs
  · exact getField_congr _ _ _ _ _ (by decide) hs
  · exact getField_congr _ _ _ _ _ (by decide) hc
  · exact getField_congr _ _ _ _ _ (by decide) hc
  · exact getField_congr _ _ _ _ _ (by decide) hc

/-- C10 at a concrete input: control word `0x8000004F`, flag masks ECD
(`0x4000`) and SCD (`0x8000`). -/
theorem flag_helpers_witness :
    (0x4000 : Nat) ≠ 0
    ∧ ((tIPU_CTRL.mk 0x8000004F).set_flags 0x4000).test 0x4000 = true
    ∧ ((tIPU_CTRL.mk 0x8000004F).set_flags 0x4000)._u32 = 0x8000404F
    ∧ ((tIPU_CTRL.mk 0x8000404F).clear_flags 0x4000)._u32 = 0x8000004F :=
  ⟨by decide, (flag_helpers ⟨0x8000004F⟩ 0x4000 0x8000).2.2.1 (by decide), by decide, by decide⟩

/-! ## The opcode enumeration -/

/-- C4: `SCE_IPU` has exactly ten members, in the order BCLR, IDEC, BDEC, VDEC,
FDEC, SETIQ, SETVQ, CSC, PACK, SETTH, with the distinct consecutive values 0
to 9; so a 4-bit CMD value is a defined opcode exactly when it is at most 9, and
exactly the six values 10..15 are not opcodes. -/
theorem opcode_values (r : tIPU_CMD) :
    SCE_IPU.enumerators.length = 10
    ∧ (∀ op : SCE_IPU, op ∈ SCE_IPU.enumerators)
    ∧ SCE_IPU.enumerators.Nodup
    ∧ SCE_IPU.enumerators.map SCE_IPU.val = [0, 1, 2, 3, 4, 5, 6, 7, 8, 9]
    ∧ Function.Injective SCE_IPU.val
    ∧ (∀ c : Nat, (∃ op : SCE_IPU, op.val = c) ↔ c ≤ 9)
    ∧ r.CMD < 16
    ∧ SCE_IPU.isOpcode r.CMD = decide (r.CMD ≤ 9)
    ∧ (List.range 16).filter (fun c => !SCE_IPU.isOpcode c) = [10, 11, 12, 13, 14, 15] := by
  have hiff : ∀ c : Nat, (∃ op : SCE_IPU, op.val = c) ↔ c ≤ 9 := by
    intro c
    constructor
    · rintro ⟨op, rfl⟩
      cases op <;> decide
    · intro h
      interval_cases c
      · exact ⟨.SCE_IPU_BCLR, rfl⟩
      · exact ⟨.SCE_IPU_IDEC, rfl⟩
      · exact ⟨.SCE_IPU_BDEC, rfl⟩
      · exact ⟨.SCE_IPU_VDEC, rfl⟩
      · exact ⟨.SCE_IPU_FDEC, rfl⟩
      · exact ⟨.SCE_IPU_SETIQ, rfl⟩
      · exact ⟨.SCE_IPU_SETVQ, rfl⟩
      · exact ⟨.SCE_IPU_CSC, rfl⟩
      · exact ⟨.SCE_IPU_PACK, rfl⟩
      · exact ⟨.SCE_IPU_SETTH, rfl⟩
  have hlt : r.CMD < 16 := by
    unfold tIPU_CMD.CMD getField
    exact Nat.mod_lt _ (by decide)
  refine ⟨rfl, ?_, by decide, rfl, ?_, hiff, hlt, ?_, by decide⟩
  · intro op
    cases op <;> decide
  · intro a b h
    cases a <;> cases b <;> first | rfl | exact absurd h (by decide)
  · generalize r.CMD = c at hlt
    interval_cases c <;> rfl

/-! ## The command bookkeeping record -/

/-- C5: from every prior state `clear()` gives the same state, with `index == 0`,
`pos[0] == 0`, `pos[1] == 0` and `current` the sentinel `0xffffffff` (`-1` as a
32-bit int); the sentinel differs from each of the ten opcode values. -/
theorem clear_fixed_state (s t : tIPU_cmd) :
    s.clear = t.clear
    ∧ s.clear.index = 0 ∧ s.clear.pos 0 = 0 ∧ s.clear.pos 1 = 0
    ∧ s.clear.current = -1 ∧ toU32 s.clear.current = 0xffffffff
    ∧ (∀ op : SCE_IPU, s.clear.current ≠ (op.val : Int) ∧ toU32 s.clear.current ≠ op.val) := by
  have hcur : s.clear.current = -1 := by
    show toInt32 0xffffffff = -1
    decide
  rw [hcur]
  refine ⟨rfl, rfl, rfl, rfl, rfl, by decide, ?_⟩
  intro op
  cases op <;> exact ⟨by decide, by decide⟩

/-! ## The command register views -/

/-- C7: a 32-bit command word `w` splits as `CMD == w >> 28` and
`OPTION == w & 0x0FFFFFFF` with `w == (CMD << 28) | OPTION`, and the `cmd` field
of the IDEC, BDEC and CSC views of `w` is that same `CMD`. -/
theorem cmd_views_agree (w busy : Nat) (hw : w < 2 ^ 32) :
    (tIPU_CMD.mk w busy).CMD = w >>> 28
    ∧ (tIPU_CMD.mk w busy).OPTION = w &&& 0x0FFFFFFF
    ∧ w = ((tIPU_CMD.mk w busy).CMD <<< 28) ||| (tIPU_CMD.mk w busy).OPTION
    ∧ (tIPU_CMD_IDEC.mk w).cmd = (tIPU_CMD.mk w busy).CMD
    ∧ (tIPU_CMD_BDEC.mk w).cmd = (tIPU_CMD.mk w busy).CMD
    ∧ (tIPU_CMD_CSC.mk w).cmd = (tIPU_CMD.mk w busy).CMD := by
  have hcmd : (tIPU_CMD.mk w busy).CMD = w >>> 28 := by
    show (w >>> 28) % 2 ^ 4 = w >>> 28
    rw [Nat.shiftRight_eq_div_pow]
    omega
  have hopt : (tIPU_CMD.mk w busy).OPTION = w &&& 0x0FFFFFFF := by
    show (w >>> 0) % 2 ^ 28 = w &&& (2 ^ 28 - 1)
    rw [Nat.and_pow_two_sub_one_eq_mod, Nat.shiftRight_zero]
  refine ⟨hcmd, hopt, ?_, rfl, rfl, rfl⟩
  rw [hcmd, hopt]
  apply Nat.eq_of_testBit_eq
  intro i
  have h28 : (0x0FFFFFFF : Nat) = 2 ^ 28 - 1 := by decide
  rw [Nat.testBit_or, Nat.testBit_and, Nat.testBit_shiftLeft, Nat.testBit_shiftRight, h28,
    Nat.testBit_two_pow_sub_one]
  by_cases hi : 28 ≤ i
  · have : 28 + (i - 28) = i := by omega
    have h2 : ¬ i < 28 := by omega
    simp [hi, this, h2]
  · have h2 : i < 28 := by omega
    simp [hi, h2]

/-- C7 at the IDEC command word `0x10050000`: every view reads opcode 1. -/
theorem cmd_views_agree_witness :
    (0x10050000 : Nat) < 2 ^ 32
    ∧ (tIPU_CMD.mk 0x10050000 0).CMD = 0x10050000 >>> 28
    ∧ (tIPU_CMD_IDEC.mk 0x10050000).cmd = 1 :=
  ⟨by decide, (cmd_views_agree 0x10050000 0 (by decide)).1, by decide⟩

/-- C8: the fields of the IDEC, BDEC and CSC views partition the 32-bit word:
storing the fields read from a word `w` gives `w` back, and reading the fields
of a word packed from in-range values gives the values back; the IDEC word with
QSC=5, cmd=IDEC and every other field 0 is `0x10050000`. -/
theorem fields_roundtrip (w : Nat) (hw : w < 2 ^ 32) (iv bv cv : List Nat)
    (hi : InRange tIPU_CMD_IDEC.layout iv) (hb : InRange tIPU_CMD_BDEC.layout bv)
    (hc : InRange tIPU_CMD_CSC.layout cv) :
    ((tIPU_CMD_IDEC.layout.map Prod.snd).sum = 32
      ∧ (tIPU_CMD_BDEC.layout.map Prod.snd).sum = 32
      ∧ (tIPU_CMD_CSC.layout.map Prod.snd).sum = 32)
    ∧ (unpackFields tIPU_CMD_IDEC.layout w = (tIPU_CMD_IDEC.mk w).fields
      ∧ unpackFields tIPU_CMD_BDEC.layout w = (tIPU_CMD_BDEC.mk w).fields
      ∧ unpackFields tIPU_CMD_CSC.layout w = (tIPU_CMD_CSC.mk w).fields)
    ∧ (packFields tIPU_CMD_IDEC.layout (tIPU_CMD_IDEC.mk w).fields = w
      ∧ packFields tIPU_CMD_BDEC.layout (tIPU_CMD_BDEC.mk w).fields = w
      ∧ packFields tIPU_CMD_CSC.layout (tIPU_CMD_CSC.mk w).fields = w)
    ∧ ((tIPU_CMD_IDEC.mk (packFields tIPU_CMD_IDEC.layout iv)).fields = iv
      ∧ (tIPU_CMD_BDEC.mk (packFields tIPU_CMD_BDEC.layout bv)).fields = bv
      ∧ (tIPU_CMD_CSC.mk (packFields tIPU_CMD_CSC.layout cv)).fields = cv)
    ∧ (packFields tIPU_CMD_IDEC.layout [0, 0, 5, 0, 0, 0, 0, 0, SCE_IPU.SCE_IPU_IDEC.val]
        = 0x10050000
      ∧ (tIPU_CMD_IDEC.mk 0x10050000).fields = [0, 0, 5, 0, 0, 0, 0, 0, SCE_IPU.SCE_IPU_IDEC.val]) := by
  have ui : ∀ x, unpackFields tIPU_CMD_IDEC.layout x = (tIPU_CMD_IDEC.mk x).fields := by
    intro x
    simp [unpackFields, tIPU_CMD_IDEC.layout, tIPU_CMD_IDEC.fields, tIPU_CMD_IDEC.FB,
      tIPU_CMD_IDEC.UN2, tIPU_CMD_IDEC.QSC, tIPU_CMD_IDEC.UN1, tIPU_CMD_IDEC.DTD,
      tIPU_CMD_IDEC.SGN, tIPU_CMD_IDEC.DTE, tIPU_CMD_IDEC.OFM, tIPU_CMD_IDEC.cmd,
      getField, fieldOffset, fieldWidth, ← Nat.shiftRight_add]
  have ub : ∀ x, unpackFields tIPU_CMD_BDEC.layout x = (tIPU_CMD_BDEC.mk x).fields := by
    intro x
    simp [unpackFields, tIPU_CMD_BDEC.layout, tIPU_CMD_BDEC.fields, tIPU_CMD_BDEC.FB,
      tIPU_CMD_BDEC.UN2, tIPU_CMD_BDEC.QSC, tIPU_CMD_BDEC.UN1, tIPU_CMD_BDEC.DT,
      tIPU_CMD_BDEC.DCR, tIPU_CMD_BDEC.MBI, tIPU_CMD_BDEC.cmd,
      getField, fieldOffset, fieldWidth, ← Nat.shiftRight_add]
  have uc : ∀ x, unpackFields tIPU_CMD_CSC.layout x = (tIPU_CMD_CSC.mk x).fields := by
    intro x
    simp [unpackFields, tIPU_CMD_CSC.layout, tIPU_CMD_CSC.fields, tIPU_CMD_CSC.MBC,
      tIPU_CMD_CSC.UN2, tIPU_CMD_CSC.DTE, tIPU_CMD_CSC.OFM, tIPU_CMD_CSC.cmd,
      getField, fieldOffset, fieldWidth, ← Nat.shiftRight_add]
  refine ⟨⟨by decide, by decide, by decide⟩, ⟨ui w, ub w, uc w⟩, ⟨?_, ?_, ?_⟩, ⟨?_, ?_, ?_⟩,
    ⟨by decide, by decide⟩⟩
  · rw [← ui, packFields_unpackFields]
    exact Nat.mod_eq_of_lt hw
  · rw [← ub, packFields_unpackFields]
    exact Nat.mod_eq_of_lt hw
  · rw [← uc, packFields_unpackFields]
    exact Nat.mod_eq_of_lt hw
  · rw [← ui, unpackFields_packFields _ _ hi]
  · rw [← ub, unpackFields_packFields _ _ hb]
  · rw [← uc, unpackFields_packFields _ _ hc]

/-- C8 at concrete inputs: the IDEC word `0x10050000` and one in-range value
list per view. -/
theorem fields_roundtrip_witness :
    (0x10050000 : Nat) < 2 ^ 32
    ∧ InRange tIPU_CMD_IDEC.layout [0, 0, 5, 0, 0, 0, 0, 0, 1]
    ∧ InRange tIPU_CMD_BDEC.layout [3, 0, 7, 0, 1, 0, 1, 2]
    ∧ InRange tIPU_CMD_CSC.layout [396, 0, 1, 1, 7]
    ∧ packFields tIPU_CMD_IDEC.layout (tIPU_CMD_IDEC.mk 0x10050000).fields = 0x10050000
    ∧ (tIPU_CMD_IDEC.mk (packFields tIPU_CMD_IDEC.layout [0, 0, 5, 0, 0, 0, 0, 0, 1])).fields
        = [0, 0, 5, 0, 0, 0, 0, 0, 1]
    ∧ (tIPU_CMD_BDEC.mk (packFields tIPU_CMD_BDEC.layout [3, 0, 7, 0, 1, 0, 1, 2])).fields
        = [3, 0, 7, 0, 1, 0, 1, 2]
    ∧ (tIPU_CMD_CSC.mk (packFields tIPU_CMD_CSC.layout [396, 0, 1, 1, 7])).fields
        = [396, 0, 1, 1, 7] :=
  have h := fields_roundtrip 0x10050000 (by decide) [0, 0, 5, 0, 0, 0, 0, 0, 1]
    [3, 0, 7, 0, 1, 0, 1, 2] [396, 0, 1, 1, 7] (by decide) (by decide) (by decide)
  ⟨by decide, by decide, by decide, by decide, h.2.2.1.1, h.2.2.2.1.1, h.2.2.2.1.2.1,
    h.2.2.2.1.2.2⟩

/-! ## Interrupt scheduling -/

/-- C9 on the code: whatever the pending mask is, also with the bit of its own
channel `DMAC_FROM_IPU` set, `IPU_INT_FROM` calls `CPU_INT` once; `IPU_INT_TO`
makes no call whenever bit 4 of the pending mask is set, and one call when it
is clear. At `cpuRegs.interrupt = 0x8` with `DMAC_FROM_IPU = 3` the out-of-unit
request is scheduled again. -/
theorem IPU_INT_FROM_schedules_while_pending (DMAC_TO_IPU DMAC_FROM_IPU interrupt cycles : Nat) :
    (interrupt ||| (1 <<< DMAC_FROM_IPU)) &&& (1 <<< DMAC_FROM_IPU) ≠ 0
    ∧ IPU_INT_FROM DMAC_FROM_IPU (interrupt ||| (1 <<< DMAC_FROM_IPU)) cycles
        = [⟨DMAC_FROM_IPU, cycles⟩]
    ∧ IPU_INT_FROM 3 0x8 cycles = [⟨3, cycles⟩]
    ∧ IPU_INT_TO DMAC_TO_IPU (interrupt ||| (1 <<< 4)) cycles = []
    ∧ IPU_INT_TO DMAC_TO_IPU (interrupt &&& not32 (1 <<< 4)) cycles = [⟨DMAC_TO_IPU, cycles⟩] := by
  have hor : ∀ x k : Nat, (x ||| k) &&& k = k := by
    intro x k
    apply Nat.eq_of_testBit_eq
    intro i
    rw [Nat.testBit_and, Nat.testBit_or]
    cases x.testBit i <;> cases k.testBit i <;> rfl
  have hand : (interrupt &&& not32 (1 <<< 4)) &&& (1 <<< 4) = 0 :=
    and_and_disjoint interrupt _ _ (by decide)
  refine ⟨?_, rfl, rfl, ?_, ?_⟩
  · rw [hor, Nat.shiftLeft_eq, Nat.one_mul]
    exact Nat.pos_iff_ne_zero.mp (Nat.two_pow_pos DMAC_FROM_IPU)
  · unfold IPU_INT_TO
    rw [hor, if_neg (by decide)]
  · unfold IPU_INT_TO
    rw [hand, if_pos rfl]

end IPU
